import Mathlib

/-!
Verification of the resource registration and service-composition engine of
`src/normalized_resource.rs` (the `NormalizedResource` builder, its
registration logic with trailing-slash normalization, the deferred factory
slot, and the dispatch front-end).

Path patterns are embedded as lists of characters.  The external
collaborators that the source consumes (the router `ResourceDef`, the
`Extensions` type map, the registry `AppService`, the runtime pieces from
`crate::resource`) are modelled from the spec, as marked on each definition.
-/

set_option autoImplicit false

/-- A path pattern, as the list of its characters. -/
abbrev Pattern := List Char

/-- Embedding of `self.merge_slash.replace_all(rdef.pattern(), "/")` with
`merge_slash = Regex::new("//+")` (normalized_resource.rs lines 54 and 410):
every maximal run of two or more consecutive slashes is replaced by one
slash.  Equivalently, a slash that is immediately followed by another slash
is dropped, which is the recursion used here. -/
def collapseSlashes : List Char → List Char
  | [] => []
  | a :: rest =>
    if a = '/' ∧ rest.head? = some '/' then collapseSlashes rest
    else a :: collapseSlashes rest

/-- Embedding of `cleaned_path.ends_with("/")` (line 412): whether the last
character of the pattern is a slash. -/
def endsWithSlash : List Char → Bool
  | [] => false
  | [c] => c == '/'
  | _ :: c :: t => endsWithSlash (c :: t)

/-- Embedding of `cleaned_path.trim_end_matches("/")` (line 413): removes
every trailing slash.  A head character survives exactly when something
after it survives, or when it is not a slash. -/
def trimEndSlashes : List Char → List Char
  | [] => []
  | a :: t =>
    match trimEndSlashes t with
    | [] => if a = '/' then [] else [a]
    | b :: t' => a :: b :: t'

/-- The trailing-slash toggle of lines 412-417: the secondary pattern is the
cleaned pattern with its trailing slashes trimmed when it ends in a slash,
and the cleaned pattern with one slash appended otherwise. -/
def toggleTrailingSlash (l : List Char) : List Char :=
  if endsWithSlash l then trimEndSlashes l else l ++ ['/']

/-- Modelled from the spec: `crate::dev::insert_slash`, used at line 387, is
not under src/.  The spec treats registered patterns as absolute paths; this
helper prepends a leading slash to a non-empty pattern that lacks one and
leaves every other pattern unchanged. -/
def insertSlash (l : List Char) : List Char :=
  if l ≠ [] ∧ l.head? ≠ some '/' then '/' :: l else l

/-- Helper predicate: no two adjacent characters are both slashes.  This is
the shape `collapseSlashes` guarantees for its output. -/
def noDoubleSlash : List Char → Prop
  | [] => True
  | [_] => True
  | a :: b :: t => ¬(a = '/' ∧ b = '/') ∧ noDoubleSlash (b :: t)

/-- Abstract guard identifiers.  The source stores guards as boxed trait
objects (`Vec<Box<dyn Guard>>`); only their identity and order matter for
the registration claims. -/
abbrev Guard := Nat

/-- Modelled from the spec: `crate::route::Route` is not under src/.  A
route couples a guard set with a handler; `check` is the conjunction of the
guards of the route on a request and `handler` produces the response status.
Requests and response statuses are abstracted to numbers. -/
structure Route where
  check : Nat → Bool
  handler : Nat → Nat

/-- Modelled from the spec: `actix_http::Extensions` (external crate) is a
map keyed by type.  Type keys and stored values are abstracted to numbers;
newer insertions are consulted first, so the last write for a key wins. -/
abbrev Extensions := List (Nat × Nat)

/-- An empty type map (`Extensions::new`). -/
def Extensions.new : Extensions := []

/-- Insertion into the type map: the new binding shadows older ones. -/
def Extensions.insert (e : Extensions) (k v : Nat) : Extensions :=
  (k, v) :: e

/-- Lookup in the type map: the most recent binding for the key. -/
def Extensions.get (e : Extensions) (k : Nat) : Option Nat :=
  (List.find? (fun p => p.1 == k) e).map (fun p => p.2)

/-- Modelled from the spec: the boxed default-service factory
(`HttpNewService` of `crate::resource`, not under src/).  Construction of
the stored service either succeeds with a handler or fails; line 360-362
wraps construction failures with logging (`map_init_err`), after which the
spec has the dispatcher treat the default as absent. -/
inductive HttpNewService where
  | ok (handler : Nat → Nat)
  | failsToConstruct

/-- `crate::resource::ResourceFactory` as populated by
`into_new_service` (lines 436-440): the compiled routes, the resource
scoped data (the `Rc` wrapper of line 438 is dropped in the model) and the
default-service cell contents. -/
structure ResourceFactory where
  routes : List Route
  data : Option Extensions
  default : Option HttpNewService

/-- The dispatch front-end: at the bottom a `ResourceEndpoint` holding the
address of the shared factory slot (lines 449-457); `wrap` layers
transforms on top via `apply_transform` (actix-service, external).
Transforms are abstract identifiers. -/
inductive Endpoint where
  | resourceEndpoint (slotAddr : Nat)
  | transformed (mw : Nat) (inner : Endpoint)
deriving DecidableEq

/-- `apply_transform(mw, endpoint)` (line 279), kept abstract: it records
the middleware layer around the previous front-end. -/
def applyTransform (mw : Nat) (e : Endpoint) : Endpoint :=
  Endpoint.transformed mw e

/-- The builder state (`struct NormalizedResource`, lines 29-39).  The
shared `Rc<RefCell<...>>` cells are modelled by an address together with
the cell contents: `slotAddr`/`slot` model the `factory_ref` cell and
`default` models the contents of the default-service cell.  The
`merge_slash` Regex field (line 38, always `"//+"`) is modelled by the
global `collapseSlashes`. -/
structure NormalizedResource where
  endpoint : Endpoint
  rdef : Pattern
  name : Option Pattern
  routes : List Route
  data : Option Extensions
  guards : List Guard
  default : Option HttpNewService
  slotAddr : Nat
  slot : Option ResourceFactory

/-- `NormalizedResource::new` (lines 42-56): a fresh empty slot cell is
allocated (address 0) and the endpoint is built over the same cell
(`fref.clone()`). -/
def NormalizedResource.new (path : Pattern) : NormalizedResource :=
  { routes := []
    rdef := path
    name := none
    endpoint := Endpoint.resourceEndpoint 0
    slotAddr := 0
    slot := none
    guards := []
    data := none
    default := none }

/-- The `name` method (lines 72-75), renamed `setName` because the
structure field is already called `name`. -/
def NormalizedResource.setName (r : NormalizedResource) (n : Pattern) :
    NormalizedResource :=
  { r with name := some n }

/-- The `guard` method (lines 100-103): pushes one guard. -/
def NormalizedResource.guard (r : NormalizedResource) (g : Guard) :
    NormalizedResource :=
  { r with guards := r.guards ++ [g] }

/-- The `route` method (lines 144-147): appends one route, order
preserving. -/
def NormalizedResource.route (r : NormalizedResource) (rt : Route) :
    NormalizedResource :=
  { r with routes := r.routes ++ [rt] }

/-- The `data` method (lines 176-182), renamed `dataOp` because the
structure field is already called `data`: allocates the `Extensions` map on
first use, then inserts the value under its type key (`Data::new(data)` is
keyed by the type of the value; keys are abstracted to numbers). -/
def NormalizedResource.dataOp (r : NormalizedResource) (k v : Nat) :
    NormalizedResource :=
  let e :=
    match r.data with
    | none => Extensions.new
    | some e => e
  { r with data := some (Extensions.insert e k v) }

/-- The `wrap` method (lines 257-291): the endpoint becomes the transformed
endpoint, every other field is moved across unchanged, including the shared
`factory_ref` cell. -/
def NormalizedResource.wrap (r : NormalizedResource) (mw : Nat) :
    NormalizedResource :=
  { endpoint := applyTransform mw r.endpoint
    rdef := r.rdef
    name := r.name
    guards := r.guards
    routes := r.routes
    default := r.default
    data := r.data
    slotAddr := r.slotAddr
    slot := r.slot }

/-- The `default_service` method (lines 347-366): stores the given factory
(wrapped for construction-failure logging) in a fresh default cell,
replacing whatever fallback was configured before. -/
def NormalizedResource.default_service (r : NormalizedResource)
    (f : HttpNewService) : NormalizedResource :=
  { r with default := some f }

/-- The `ResourceFactory` built at finalization from the current builder
fields (lines 436-440). -/
def NormalizedResource.compiledFactory (r : NormalizedResource) :
    ResourceFactory :=
  { routes := r.routes, data := r.data, default := r.default }

/-- `IntoNewService::into_new_service` (lines 435-443): writes the compiled
factory into the shared `factory_ref` cell and returns the endpoint.
Modelled as the returned endpoint paired with the new contents of the
cell. -/
def NormalizedResource.into_new_service (r : NormalizedResource) :
    Endpoint × Option ResourceFactory :=
  (r.endpoint, some r.compiledFactory)

/-- Modelled from the spec: `ResourceDef` (actix-router, external) as
consumed by the registry: the pattern string it was created from, returned
verbatim by `.pattern()`, plus an optional name used for url generation.
`ResourceDef::new` leaves the name unset; `*rdef.name_mut() = n` sets
it. -/
structure ResourceDef where
  pattern : Pattern
  name : Option Pattern
deriving DecidableEq

/-- `ResourceDef::new(p)` with no name. -/
def ResourceDef.new (p : Pattern) : ResourceDef :=
  { pattern := p, name := none }

/-- The primary resource definition of `register` (lines 386-393): the raw
builder pattern, passed through `insert_slash` when registering at the root
or when the pattern is non-empty, with the resource name copied in when one
was set. -/
def NormalizedResource.primaryRdef (r : NormalizedResource) (isRoot : Bool) :
    ResourceDef :=
  let rdef0 :=
    if isRoot = true ∨ r.rdef ≠ [] then ResourceDef.new (insertSlash r.rdef)
    else ResourceDef.new r.rdef
  match r.name with
  | some n => { rdef0 with name := some n }
  | none => rdef0

/-- The secondary resource definition of `register` (lines 410-417): the
primary pattern is cleaned by collapsing repeated slashes and its trailing
slash is toggled; the resulting `ResourceDef` is fresh and unnamed. -/
def NormalizedResource.secondaryRdef (r : NormalizedResource)
    (isRoot : Bool) : ResourceDef :=
  ResourceDef.new
    (toggleTrailingSlash (collapseSlashes (r.primaryRdef isRoot).pattern))

/-- Modelled from the spec: one `config.register_service(rdef, guards,
service, nested)` call observed by the external registry (`AppService`, not
under src/).  Shared `Rc` values are represented by addresses into the
stores of `RegisterResult`. -/
structure Registration where
  rdef : ResourceDef
  guardsRef : Option Nat
  serviceRef : Nat
  nested : Option Unit
deriving DecidableEq

/-- The observable effect of `HttpServiceFactory::register`
(lines 379-422): the two `register_service` calls in order, the store of
`Rc`-shared guard vectors (line 403 allocates at most one, at address 0),
the store of `Rc`-shared services (line 419 allocates exactly one, at
address 0), the slot contents written by `into_new_service`, and the data
handed to `config.set_service_data` (line 396). -/
structure RegisterResult where
  entries : List Registration
  sharedGuards : List (List Guard)
  serviceStore : List Endpoint
  slotAfter : Option ResourceFactory
  serviceData : Option Extensions

/-- `HttpServiceFactory::register` (lines 379-422).  When the guard list is
non-empty it is moved into one shared `Rc` (address 0) and both
registrations receive a guard set wrapping that same `Rc`; the compiled
service is put behind one shared `Rc` (address 0) used by both
registrations, primary first, secondary second. -/
def NormalizedResource.register (r : NormalizedResource) (isRoot : Bool) :
    RegisterResult :=
  let guardsAreEmpty := r.guards.isEmpty
  let gp : Option Nat × Option Nat :=
    if guardsAreEmpty then (none, none) else (some 0, some 0)
  let store : List (List Guard) :=
    if guardsAreEmpty then [] else [r.guards]
  { entries :=
      [ { rdef := r.primaryRdef isRoot, guardsRef := gp.1, serviceRef := 0,
          nested := none },
        { rdef := r.secondaryRdef isRoot, guardsRef := gp.2, serviceRef := 0,
          nested := none } ]
    sharedGuards := store
    serviceStore := [r.into_new_service.1]
    slotAfter := r.into_new_service.2
    serviceData := r.data }

/-- The outcome of asking the front-end for a service: either the delegated
construction from the stored factory, or a panic. -/
inductive ServiceResult where
  | panicked
  | created (factory : ResourceFactory)

/-- `ResourceEndpoint::new_service` (lines 468-470):
`self.factory.borrow_mut().as_mut().unwrap().new_service(&())`.  The
argument is the current contents of the shared `factory_ref` cell; the
`.unwrap()` on an empty cell is a panic, otherwise the call delegates to
the stored factory. -/
def ResourceEndpoint.new_service :
    Option ResourceFactory → ServiceResult
  | none => ServiceResult.panicked
  | some f => ServiceResult.created f

/-- Modelled from the spec: the runtime dispatcher
(`crate::resource::ResourceService`, not under src/).  Routes are tried in
registration order and the first whose guards accept handles the request;
otherwise a configured, successfully constructed default handles it; a
default whose construction failed was logged and left absent, so such a
resource answers 405 (method not allowed), exactly as when no default is
configured. -/
def dispatch (f : ResourceFactory) (req : Nat) : Nat :=
  match f.routes.find? (fun rt => rt.check req) with
  | some rt => rt.handler req
  | none =>
    match f.default with
    | some (HttpNewService.ok h) => h req
    | some HttpNewService.failsToConstruct => 405
    | none => 405

/-- One configuration step of the builder, covering every configuration
operation of the source: `name`, `guard`, `route`, `data`, `wrap` and
`default_service`. -/
inductive ConfigOp where
  | nameOp (n : Pattern)
  | guardOp (g : Guard)
  | routeOp (rt : Route)
  | dataOp (k v : Nat)
  | wrapOp (mw : Nat)
  | defaultOp (f : HttpNewService)

/-- Interpretation of one configuration step on the builder state. -/
def applyConfigOp (r : NormalizedResource) : ConfigOp → NormalizedResource
  | ConfigOp.nameOp n => r.setName n
  | ConfigOp.guardOp g => r.guard g
  | ConfigOp.routeOp rt => r.route rt
  | ConfigOp.dataOp k v => r.dataOp k v
  | ConfigOp.wrapOp mw => r.wrap mw
  | ConfigOp.defaultOp f => r.default_service f

theorem trimEndSlashes_cons (a : Char) (t : List Char) :
    trimEndSlashes (a :: t) =
      match trimEndSlashes t with
      | [] => if a = '/' then [] else [a]
      | b :: t' => a :: b :: t' := rfl

theorem collapseSlashes_ne_nil {l : List Char} (h : l ≠ []) :
    collapseSlashes l ≠ [] := by
  induction l with
  | nil => exact absurd rfl h
  | cons a t ih =>
    simp only [collapseSlashes]
    split
    · rename_i hc
      have ht : t ≠ [] := by
        intro he
        rw [he] at hc
        simp at hc
      exact ih ht
    · simp

theorem head?_collapseSlashes (l : List Char) :
    (collapseSlashes l).head? = l.head? := by
  induction l with
  | nil => rfl
  | cons a t ih =>
    simp only [collapseSlashes]
    split
    · rename_i hc
      rw [ih, hc.2, hc.1]
      rfl
    · rfl

theorem endsWithSlash_collapseSlashes (l : List Char) :
    endsWithSlash (collapseSlashes l) = endsWithSlash l := by
  induction l with
  | nil => rfl
  | cons a t ih =>
    simp only [collapseSlashes]
    split
    · rename_i hc
      obtain ⟨b, t', rfl⟩ : ∃ b t', t = b :: t' := by
        cases t with
        | nil => simp at hc
        | cons b t' => exact ⟨b, t', rfl⟩
      rw [ih]
      rfl
    · cases t with
      | nil => rfl
      | cons b t' =>
        rcases hcc : collapseSlashes (b :: t') with _ | ⟨c, u⟩
        · exact absurd hcc (collapseSlashes_ne_nil (by simp))
        · rw [hcc] at ih
          show endsWithSlash (a :: c :: u) = endsWithSlash (a :: b :: t')
          rw [show endsWithSlash (a :: c :: u) = endsWithSlash (c :: u) from rfl]
          rw [show endsWithSlash (a :: b :: t') = endsWithSlash (b :: t') from rfl]
          exact ih

theorem noDoubleSlash_collapseSlashes (l : List Char) :
    noDoubleSlash (collapseSlashes l) := by
  induction l with
  | nil => trivial
  | cons a t ih =>
    simp only [collapseSlashes]
    split
    · exact ih
    · rename_i hc
      rcases hcc : collapseSlashes t with _ | ⟨c, u⟩
      · trivial
      · rw [hcc] at ih
        refine ⟨?_, ih⟩
        rintro ⟨ha, hb⟩
        apply hc
        refine ⟨ha, ?_⟩
        have := head?_collapseSlashes t
        rw [hcc] at this
        rw [← this]
        simp [hb]

theorem trimEndSlashes_append_slash_of_noDouble {l : List Char}
    (hnd : noDoubleSlash l) (he : endsWithSlash l = true) :
    trimEndSlashes l ++ ['/'] = l := by
  induction l with
  | nil => simp [endsWithSlash] at he
  | cons a t ih =>
    cases t with
    | nil =>
      have ha : a = '/' := by
        simpa [endsWithSlash] using he
      simp [trimEndSlashes, ha]
    | cons b t' =>
      obtain ⟨h1, h2⟩ := hnd
      have he' : endsWithSlash (b :: t') = true := he
      have ihr := ih h2 he'
      rcases htr : trimEndSlashes (b :: t') with _ | ⟨c, u⟩
      · rw [htr] at ihr
        simp only [List.nil_append] at ihr
        have hb : b = '/' := by
          have := congrArg List.head? ihr
          simpa using this.symm
        have ht' : t' = [] := by
          have := congrArg List.tail ihr
          simpa using this.symm
        have hane : a ≠ '/' := by
          intro hae
          exact h1 ⟨hae, hb⟩
        rw [trimEndSlashes_cons, htr]
        simp [hane, hb, ht']
      · rw [htr] at ihr
        rw [trimEndSlashes_cons, htr, List.cons_append, ihr]

theorem trimEndSlashes_of_not_endsWith {l : List Char}
    (he : endsWithSlash l = false) : trimEndSlashes l = l := by
  induction l with
  | nil => rfl
  | cons a t ih =>
    cases t with
    | nil =>
      have ha : a ≠ '/' := by
        simpa [endsWithSlash] using he
      simp [trimEndSlashes, ha]
    | cons b t' =>
      have he' : endsWithSlash (b :: t') = false := he
      have ihr := ih he'
      rw [trimEndSlashes_cons, ihr]

theorem endsWithSlash_append_slash (l : List Char) :
    endsWithSlash (l ++ ['/']) = true := by
  induction l with
  | nil => rfl
  | cons a t ih =>
    cases t with
    | nil => rfl
    | cons b t' =>
      show endsWithSlash (b :: (t' ++ ['/'])) = true
      exact ih

theorem trimEndSlashes_append_slash (l : List Char) :
    trimEndSlashes (l ++ ['/']) = trimEndSlashes l := by
  induction l with
  | nil => rfl
  | cons a t ih =>
    show (match trimEndSlashes (t ++ ['/']) with
      | [] => if a = '/' then [] else [a]
      | b :: t' => a :: b :: t') = trimEndSlashes (a :: t)
    rw [ih]
    rfl

theorem endsWithSlash_trimEndSlashes (l : List Char) :
    endsWithSlash (trimEndSlashes l) = false := by
  induction l with
  | nil => rfl
  | cons a t ih =>
    rcases htr : trimEndSlashes t with _ | ⟨c, u⟩
    · rw [trimEndSlashes_cons, htr]
      by_cases ha : a = '/'
      · simp [ha, endsWithSlash]
      · simp [ha, endsWithSlash]
    · rw [htr] at ih
      rw [trimEndSlashes_cons, htr]
      exact ih

theorem insertSlash_of_head_slash {l : List Char} (h : l.head? = some '/') :
    insertSlash l = l := by
  cases l with
  | nil => simp at h
  | cons a t =>
    have ha : a = '/' := by simpa using h
    simp [insertSlash, ha]

theorem extensions_get_insert (e : Extensions) (k v : Nat) :
    Extensions.get (Extensions.insert e k v) k = some v := by
  simp [Extensions.get, Extensions.insert]

theorem dataOp_data (r : NormalizedResource) (k v : Nat) :
    (r.dataOp k v).data
      = some (Extensions.insert (r.data.getD Extensions.new) k v) := by
  cases hd : r.data <;> simp [NormalizedResource.dataOp, hd]

theorem data_foldl_last_write (k : Nat) :
    ∀ (vs : List Nat) (r : NormalizedResource), vs ≠ [] →
      Extensions.get
          ((vs.foldl (fun s w => s.dataOp k w) r).data.getD Extensions.new) k
        = vs.getLast? := by
  intro vs
  induction vs with
  | nil => intro r h; exact absurd rfl h
  | cons v vs ih =>
    intro r _
    cases vs with
    | nil =>
      simp [List.foldl_cons, List.foldl_nil, dataOp_data, extensions_get_insert]
    | cons w ws =>
      rw [List.foldl_cons, ih (r.dataOp k v) (by simp)]
      simp [List.getLast?]

theorem slot_foldl_configOps (ops : List ConfigOp) :
    ∀ r : NormalizedResource, (ops.foldl applyConfigOp r).slot = r.slot := by
  induction ops with
  | nil => intro r; rfl
  | cons op ops ih =>
    intro r
    rw [List.foldl_cons, ih]
    cases op <;> rfl

/-- C1, counterexample: for the source pattern `/a//b` (which does not end
in a slash) the two registered patterns are `/a//b` and `/a/b/`; no entry
carries the collapsed pattern `/a/b`, so the primary entry does not equal
the collapsed form of the source pattern. -/
theorem register_collapsed_primary_cex :
    ¬ (∃ e ∈ ((NormalizedResource.new
          ['/','a','/','/','b']).register false).entries,
        e.rdef.pattern = collapseSlashes ['/','a','/','/','b']) := by
  decide

/-- C1, amended: for every pattern beginning with a slash and not ending in
one, registration produces exactly two entries, the first keeping the
pattern verbatim (repeated slashes are not collapsed in the primary
pattern), the second carrying the collapsed pattern with one trailing slash
appended; both entries point at the single shared compiled service. -/
theorem register_two_entries_shared_service (P : Pattern) (isRoot : Bool)
    (h0 : P.head? = some '/') (h1 : endsWithSlash P = false) :
    ((NormalizedResource.new P).register isRoot).entries.map
        (fun e => e.rdef.pattern) = [P, collapseSlashes P ++ ['/']]
    ∧ ((NormalizedResource.new P).register isRoot).entries.map
        (fun e => e.serviceRef) = [0, 0]
    ∧ ((NormalizedResource.new P).register isRoot).serviceStore.length = 1 := by
  have hne : P ≠ [] := by
    intro h
    rw [h] at h0
    simp at h0
  have hins : insertSlash P = P := insertSlash_of_head_slash h0
  have hends : endsWithSlash (collapseSlashes P) = false := by
    rw [endsWithSlash_collapseSlashes]
    exact h1
  refine ⟨?_, rfl, rfl⟩
  simp [NormalizedResource.register, NormalizedResource.primaryRdef,
        NormalizedResource.secondaryRdef, NormalizedResource.new,
        toggleTrailingSlash, ResourceDef.new, hins, hne, hends]

theorem register_two_entries_shared_service_witness :
    (['/','t'] : Pattern).head? = some '/'
    ∧ endsWithSlash ['/','t'] = false
    ∧ (((NormalizedResource.new ['/','t']).register false).entries.map
          (fun e => e.rdef.pattern)
            = [['/','t'], collapseSlashes ['/','t'] ++ ['/']]
        ∧ ((NormalizedResource.new ['/','t']).register false).entries.map
          (fun e => e.serviceRef) = [0, 0]
        ∧ ((NormalizedResource.new ['/','t']).register
            false).serviceStore.length = 1) :=
  ⟨by decide, by decide,
    register_two_entries_shared_service ['/','t'] false (by decide) (by decide)⟩

/-- C2: for every pattern beginning with a slash whose collapsed form ends
in a slash, the secondary registered pattern is the collapsed pattern with
its trailing slashes trimmed, and appending one slash to it recovers the
collapsed pattern, i.e. exactly one trailing slash was removed.  At the
pattern `/` the secondary pattern is the empty string (see the witness). -/
theorem secondary_strips_one_trailing_slash (P : Pattern) (isRoot : Bool)
    (h0 : P.head? = some '/')
    (h1 : endsWithSlash (collapseSlashes P) = true) :
    ((NormalizedResource.new P).register isRoot).entries.map
        (fun e => e.rdef.pattern) = [P, trimEndSlashes (collapseSlashes P)]
    ∧ trimEndSlashes (collapseSlashes P) ++ ['/'] = collapseSlashes P := by
  have hne : P ≠ [] := by
    intro h
    rw [h] at h0
    simp at h0
  have hins : insertSlash P = P := insertSlash_of_head_slash h0
  constructor
  · simp [NormalizedResource.register, NormalizedResource.primaryRdef,
          NormalizedResource.secondaryRdef, NormalizedResource.new,
          toggleTrailingSlash, ResourceDef.new, hins, hne, h1]
  · exact trimEndSlashes_append_slash_of_noDouble
      (noDoubleSlash_collapseSlashes P) h1

theorem secondary_strips_one_trailing_slash_witness :
    (['/'] : Pattern).head? = some '/'
    ∧ endsWithSlash (collapseSlashes ['/']) = true
    ∧ collapseSlashes ['/'] = ['/']
    ∧ trimEndSlashes (collapseSlashes ['/']) = []
    ∧ (((NormalizedResource.new ['/']).register false).entries.map
          (fun e => e.rdef.pattern)
            = [['/'], trimEndSlashes (collapseSlashes ['/'])]
        ∧ trimEndSlashes (collapseSlashes ['/']) ++ ['/']
            = collapseSlashes ['/']) :=
  ⟨by decide, by decide, by decide, by decide,
    secondary_strips_one_trailing_slash ['/'] false (by decide) (by decide)⟩

/-- C3: on already-collapsed patterns the trailing-slash toggle used to
derive the secondary pattern (trim the trailing slashes when present,
append one slash otherwise) is an involution. -/
theorem toggle_trailing_slash_involution (P : Pattern)
    (h : collapseSlashes P = P) :
    toggleTrailingSlash (toggleTrailingSlash P) = P := by
  have hnd : noDoubleSlash P := by
    have hc := noDoubleSlash_collapseSlashes P
    rwa [h] at hc
  by_cases hE : endsWithSlash P = true
  · have h2 := endsWithSlash_trimEndSlashes P
    simp [toggleTrailingSlash, hE, h2]
    exact trimEndSlashes_append_slash_of_noDouble hnd hE
  · have hF : endsWithSlash P = false := by simpa using hE
    simp [toggleTrailingSlash, hF, endsWithSlash_append_slash,
          trimEndSlashes_append_slash]
    exact trimEndSlashes_of_not_endsWith hF

theorem toggle_trailing_slash_involution_witness :
    collapseSlashes ['/','a'] = ['/','a']
    ∧ toggleTrailingSlash (toggleTrailingSlash ['/','a']) = ['/','a'] :=
  ⟨by decide, toggle_trailing_slash_involution ['/','a'] (by decide)⟩

/-- C4: with a non-empty guard list, both registrations receive a guard set
pointing at the same shared guard vector (address 0 of the single-element
guard store, holding the original guard sequence), the registrations are
primary first and secondary second, and both are bound to the same shared
compiled service. -/
theorem register_shares_guards_and_service (r : NormalizedResource)
    (isRoot : Bool) (h : r.guards ≠ []) :
    ((r.register isRoot).entries.map (fun e => e.guardsRef))
        = [some 0, some 0]
    ∧ (r.register isRoot).sharedGuards = [r.guards]
    ∧ ((r.register isRoot).entries.map (fun e => e.rdef))
        = [r.primaryRdef isRoot, r.secondaryRdef isRoot]
    ∧ ((r.register isRoot).entries.map (fun e => e.serviceRef)) = [0, 0]
    ∧ (r.register isRoot).serviceStore = [r.endpoint] := by
  have hE : r.guards.isEmpty = false := by
    cases hg : r.guards with
    | nil => exact absurd hg h
    | cons a t => rfl
  exact ⟨by simp [NormalizedResource.register, hE],
    by simp [NormalizedResource.register, hE], rfl, rfl, rfl⟩

theorem register_shares_guards_and_service_witness :
    ((NormalizedResource.new ['/','x']).guard 5).guards ≠ []
    ∧ ((((NormalizedResource.new ['/','x']).guard 5).register false).entries.map
          (fun e => e.guardsRef) = [some 0, some 0]
        ∧ (((NormalizedResource.new ['/','x']).guard 5).register
            false).sharedGuards
            = [((NormalizedResource.new ['/','x']).guard 5).guards]
        ∧ ((((NormalizedResource.new ['/','x']).guard 5).register
            false).entries.map (fun e => e.rdef))
            = [((NormalizedResource.new ['/','x']).guard 5).primaryRdef false,
               ((NormalizedResource.new ['/','x']).guard 5).secondaryRdef false]
        ∧ ((((NormalizedResource.new ['/','x']).guard 5).register
            false).entries.map (fun e => e.serviceRef)) = [0, 0]
        ∧ (((NormalizedResource.new ['/','x']).guard 5).register
            false).serviceStore
            = [((NormalizedResource.new ['/','x']).guard 5).endpoint]) :=
  ⟨by decide,
    register_shares_guards_and_service
      ((NormalizedResource.new ['/','x']).guard 5) false (by decide)⟩

/-- C5: a fresh builder has no scoped-data map; one `data` call allocates
the map if absent and inserts under the type key; after any non-empty
sequence of `data` calls for one type key, looking the key up yields the
last value written. -/
theorem dataOp_lazy_last_write_wins (p : Pattern) (r : NormalizedResource)
    (k v : Nat) (vs : List Nat) (h : vs ≠ []) :
    (NormalizedResource.new p).data = none
    ∧ (r.dataOp k v).data
        = some (Extensions.insert (r.data.getD Extensions.new) k v)
    ∧ Extensions.get
        ((vs.foldl (fun s w => s.dataOp k w) r).data.getD Extensions.new) k
        = vs.getLast? :=
  ⟨rfl, dataOp_data r k v, data_foldl_last_write k vs r h⟩

theorem dataOp_lazy_last_write_wins_witness :
    ([1, 2] : List Nat) ≠ []
    ∧ ((NormalizedResource.new []).data = none
        ∧ ((NormalizedResource.new []).dataOp 3 9).data
            = some (Extensions.insert
                ((NormalizedResource.new []).data.getD Extensions.new) 3 9)
        ∧ Extensions.get
            (([1, 2].foldl (fun s w => s.dataOp 3 w)
                (NormalizedResource.new [])).data.getD Extensions.new) 3
            = ([1, 2] : List Nat).getLast?) :=
  ⟨by decide,
    dataOp_lazy_last_write_wins [] (NormalizedResource.new []) 3 9 [1, 2]
      (by decide)⟩

/-- C6: the deferred factory slot stays empty across every sequence of
configuration operations starting from a fresh builder, and the single
population step `into_new_service` writes exactly the compiled routes,
scoped data and default into it while returning the front-end. -/
theorem slot_empty_until_finalization (p : Pattern) (ops : List ConfigOp)
    (r : NormalizedResource) :
    (ops.foldl applyConfigOp (NormalizedResource.new p)).slot = none
    ∧ r.into_new_service.2
        = some { routes := r.routes, data := r.data, default := r.default }
    ∧ r.into_new_service.1 = r.endpoint :=
  ⟨slot_foldl_configOps ops (NormalizedResource.new p), rfl, rfl⟩

/-- C7: asking the front-end for a dispatch service while the deferred
factory slot is still empty, that is after any sequence of configuration
operations that does not include finalization, panics (the `.unwrap()` of
line 469) instead of producing a service or an error value. -/
theorem new_service_panics_before_population (p : Pattern)
    (ops : List ConfigOp) :
    ResourceEndpoint.new_service
        ((ops.foldl applyConfigOp (NormalizedResource.new p)).slot)
      = ServiceResult.panicked := by
  rw [slot_foldl_configOps ops (NormalizedResource.new p)]
  rfl

/-- C8: when the configured default service fails at construction time, a
request matched by no route receives the 405 method-not-allowed response
rather than reaching the broken default, and `default_service` always
replaces the previously configured fallback. -/
theorem default_construction_failure_405 (r : NormalizedResource) (req : Nat)
    (f g : HttpNewService)
    (h : ∀ rt ∈ r.routes, rt.check req = false) :
    dispatch
        ((r.default_service HttpNewService.failsToConstruct).compiledFactory)
        req = 405
    ∧ ((r.default_service g).default_service f).default = some f := by
  have hf : List.find? (fun rt => rt.check req) r.routes = none := by
    rw [List.find?_eq_none]
    intro rt hrt
    simp [h rt hrt]
  refine ⟨?_, rfl⟩
  simp [dispatch, NormalizedResource.default_service,
        NormalizedResource.compiledFactory, hf]

theorem default_construction_failure_405_witness :
    (∀ rt ∈ ((NormalizedResource.new ['/']).route
        { check := fun _ => false, handler := fun _ => 200 }).routes,
      rt.check 7 = false)
    ∧ (dispatch
          ((((NormalizedResource.new ['/']).route
              { check := fun _ => false, handler := fun _ => 200
              }).default_service
            HttpNewService.failsToConstruct).compiledFactory) 7 = 405
        ∧ ((((NormalizedResource.new ['/']).route
              { check := fun _ => false, handler := fun _ => 200
              }).default_service (HttpNewService.ok (fun _ => 400))
            ).default_service HttpNewService.failsToConstruct).default
            = some HttpNewService.failsToConstruct) :=
  ⟨by
      intro rt hrt
      simp [NormalizedResource.route, NormalizedResource.new] at hrt
      subst hrt
      rfl,
    default_construction_failure_405
      ((NormalizedResource.new ['/']).route
        { check := fun _ => false, handler := fun _ => 200 })
      7 HttpNewService.failsToConstruct (HttpNewService.ok (fun _ => 400))
      (by
        intro rt hrt
        simp [NormalizedResource.route, NormalizedResource.new] at hrt
        subst hrt
        rfl)⟩

/-- C9: `wrap` returns a builder whose endpoint is the transform applied to
the previous endpoint while the pattern, name, guards, routes, scoped data,
default and the shared factory cell (its address and its contents) are all
carried over unchanged. -/
theorem wrap_preserves_configuration (r : NormalizedResource) (mw : Nat) :
    (r.wrap mw).endpoint = applyTransform mw r.endpoint
    ∧ (r.wrap mw).rdef = r.rdef
    ∧ (r.wrap mw).name = r.name
    ∧ (r.wrap mw).guards = r.guards
    ∧ (r.wrap mw).routes = r.routes
    ∧ (r.wrap mw).data = r.data
    ∧ (r.wrap mw).default = r.default
    ∧ (r.wrap mw).slotAddr = r.slotAddr
    ∧ (r.wrap mw).slot = r.slot :=
  ⟨rfl, rfl, rfl, rfl, rfl, rfl, rfl, rfl, rfl⟩

/-- C10: when a resource name was set, registration writes it into the
primary resource definition only; the secondary definition is created fresh
and carries no name. -/
theorem name_only_on_primary (r : NormalizedResource) (isRoot : Bool)
    (n : Pattern) (h : r.name = some n) :
    ((r.register isRoot).entries.map (fun e => e.rdef.name))
      = [some n, none] := by
  simp [NormalizedResource.register, NormalizedResource.primaryRdef,
        NormalizedResource.secondaryRdef, ResourceDef.new, h]

theorem name_only_on_primary_witness :
    ((NormalizedResource.new ['/','x']).setName ['t']).name = some ['t']
    ∧ ((((NormalizedResource.new ['/','x']).setName ['t']).register
          false).entries.map (fun e => e.rdef.name)) = [some ['t'], none] :=
  ⟨by decide,
    name_only_on_primary ((NormalizedResource.new ['/','x']).setName ['t'])
      false ['t'] (by decide)⟩
